import Mathlib

/-!
# Verification of the music-catalog ETL pipeline

A shallow embedding of the repository's four Python sources —
`relational_database.py`, `document_database.py`, `document_database2.py`
and `synthetic_data.py` — together with theorems settling the specified
properties of the transformation stage, the bulk loaders and the
synthetic-data generator.

Conventions of the embedding:
* pandas `DataFrame`s become `List`s of typed records; columns the data
  model declares non-nullable (`artist_id`, `track_id`, names, flags)
  are plain values, the nullable columns (`album_id`, `release_date`)
  become `Option`s after extraction.
* the literal string "none" is the reader's null sentinel
  (`na_values=['none']` with `keep_default_na=False`); every other string,
  including the literal "None", is preserved as data.
* `uuid.uuid4()` draws and the generator's `random`/`faker` draws are
  modelled by oracle functions passed in as parameters: within one run a
  single oracle is fixed, which is exactly the per-run determinism the
  code relies on.
* floating-point fields (`popularity_rating`) are never computed on by
  the transforms; they are carried as opaque integer scalars.
* pandas `groupby` sorts group keys; none of the verified properties
  mention group order, and the embedding uses first-occurrence key order
  instead.  `groupby` drops rows whose key is null (`dropna=True`
  default), which the embedding models faithfully.
-/

namespace MusicETL

/-- One raw CSV record, as written by `synthetic_data.py` and read by the
three `extract` functions.  Field order follows the generator's dict. -/
structure CsvRow where
  track_id : String
  track_title : String
  artist_id : String
  artist_name : String
  album_id : String
  album_name : String
  is_single : Bool
  genre : String
  release_date : String
  duration_seconds : Int
  popularity_rating : Int
  total_streams : Int
  is_explicit : Bool
deriving DecidableEq

/-- A typed row after extraction: the nullable columns are `Option`s. -/
structure Row where
  track_id : String
  track_title : String
  artist_id : String
  artist_name : String
  album_id : Option String
  album_name : String
  is_single : Bool
  genre : String
  release_date : Option String
  duration_seconds : Int
  popularity_rating : Int
  total_streams : Int
  is_explicit : Bool
deriving DecidableEq

/-- Model of `na_values=['none']` with `keep_default_na=False`: exactly the literal
string "none" is read as null; everything else is kept as data. -/
def naField (s : String) : Option String :=
  if s = "none" then none else some s

/-- Model of `pd.to_datetime(..., errors='coerce')` on one cell: an
ISO-formatted `YYYY-MM-DD` string (the only format the generator emits)
parses to itself, anything else coerces to null. -/
def parseDate (s : String) : Option String :=
  match s.toList with
  | [y1, y2, y3, y4, c1, m1, m2, c2, d1, d2] =>
    if y1.isDigit ∧ y2.isDigit ∧ y3.isDigit ∧ y4.isDigit ∧ c1 = '-' ∧
       m1.isDigit ∧ m2.isDigit ∧ c2 = '-' ∧ d1.isDigit ∧ d2.isDigit
    then some s else none
  | _ => none

/-- Model of `relational_database.py` `extract` (lines 45-64): `pd.read_csv` with the
null sentinel, and no date parsing at all — `release_date` stays whatever
text the file held, nulled only by the sentinel. -/
def relExtractRow (r : CsvRow) : Row :=
  { track_id := r.track_id, track_title := r.track_title
    artist_id := r.artist_id, artist_name := r.artist_name
    album_id := naField r.album_id, album_name := r.album_name
    is_single := r.is_single, genre := r.genre
    release_date := naField r.release_date
    duration_seconds := r.duration_seconds
    popularity_rating := r.popularity_rating
    total_streams := r.total_streams, is_explicit := r.is_explicit }

/-- Row-wise model of the relational `extract` over the whole file. -/
def relExtract (rows : List CsvRow) : List Row := rows.map relExtractRow

/-- Model of `document_database.py` `extract` (lines 14-33) and
`document_database2.py` `extract` (lines 11-30): same CSV read, then
`df['release_date'] = pd.to_datetime(df['release_date'], errors='coerce')`,
so the sentinel and every unparseable string both become null. -/
def docExtractRow (r : CsvRow) : Row :=
  { relExtractRow r with release_date := (naField r.release_date).bind parseDate }

/-- Row-wise model of the document-variant `extract` over the whole file. -/
def docExtract (rows : List CsvRow) : List Row := rows.map docExtractRow

/-! ## Generic list machinery

`drop_duplicates` (keep-first) and `groupby` as used by the transforms. -/

/-- Worker for keep-first deduplication: `seen` holds the keys already kept. -/
def dedupByFirstAux {ρ κ : Type} [DecidableEq κ] (key : ρ → κ) (seen : List κ) :
    List ρ → List ρ
  | [] => []
  | r :: rs =>
    if key r ∈ seen then dedupByFirstAux key seen rs
    else r :: dedupByFirstAux key (key r :: seen) rs

/-- pandas `drop_duplicates` keeping the first occurrence of each key
(`subset=['album_id']` for albums; whole-row key for artists). -/
def dedupByFirst {ρ κ : Type} [DecidableEq κ] (key : ρ → κ) (l : List ρ) : List ρ :=
  dedupByFirstAux key [] l

/-- pandas `df.groupby(col)` with a non-nullable key: one group per
distinct key, rows in original order.  Group order is first occurrence
(pandas sorts; no verified property mentions group order). -/
def groupByKey {ρ κ : Type} [DecidableEq κ] (key : ρ → κ) (l : List ρ) :
    List (κ × List ρ) :=
  (dedupByFirst id (l.map key)).map (fun k => (k, l.filter (fun x => decide (key x = k))))

/-- pandas `df.groupby(col)` with a nullable key and the default
`dropna=True`: rows whose key is null belong to no group. -/
def groupByOptKey {ρ κ : Type} [DecidableEq κ] (key : ρ → Option κ) (l : List ρ) :
    List (κ × List ρ) :=
  (dedupByFirst id (l.filterMap key)).map
    (fun k => (k, l.filter (fun x => decide (key x = some k))))

theorem mem_of_mem_dedupByFirstAux {ρ κ : Type} [DecidableEq κ] (key : ρ → κ) :
    ∀ (seen : List κ) (l : List ρ) (x : ρ), x ∈ dedupByFirstAux key seen l → x ∈ l := by
  intro seen l
  induction l generalizing seen with
  | nil => intro x hx; simp [dedupByFirstAux] at hx
  | cons r rs ih =>
    intro x hx
    by_cases h : key r ∈ seen
    · simp only [dedupByFirstAux, if_pos h] at hx
      exact List.mem_cons_of_mem _ (ih seen x hx)
    · simp only [dedupByFirstAux, if_neg h, List.mem_cons] at hx
      rcases hx with hx | hx
      · exact hx ▸ List.mem_cons_self _ _
      · exact List.mem_cons_of_mem _ (ih _ x hx)

theorem key_mem_dedupByFirstAux {ρ κ : Type} [DecidableEq κ] (key : ρ → κ) :
    ∀ (seen : List κ) (l : List ρ) (k : κ),
      k ∈ (dedupByFirstAux key seen l).map key ↔ (k ∉ seen ∧ k ∈ l.map key) := by
  intro seen l
  induction l generalizing seen with
  | nil => intro k; simp [dedupByFirstAux]
  | cons r rs ih =>
    intro k
    by_cases h : key r ∈ seen
    · simp only [dedupByFirstAux, if_pos h, ih, List.map_cons, List.mem_cons]
      constructor
      · rintro ⟨hns, hm⟩; exact ⟨hns, Or.inr hm⟩
      · rintro ⟨hns, hm | hm⟩
        · exact absurd (hm ▸ h) hns
        · exact ⟨hns, hm⟩
    · simp only [dedupByFirstAux, if_neg h, List.map_cons, List.mem_cons, ih]
      constructor
      · rintro (rfl | ⟨hns, hm⟩)
        · exact ⟨h, Or.inl rfl⟩
        · exact ⟨fun hk => hns (Or.inr hk), Or.inr hm⟩
      · rintro ⟨hns, rfl | hm⟩
        · exact Or.inl rfl
        · by_cases hkr : k = key r
          · exact Or.inl hkr
          · exact Or.inr ⟨fun hc => hc.elim hkr hns, hm⟩

theorem nodup_map_key_dedupByFirstAux {ρ κ : Type} [DecidableEq κ] (key : ρ → κ) :
    ∀ (seen : List κ) (l : List ρ), ((dedupByFirstAux key seen l).map key).Nodup := by
  intro seen l
  induction l generalizing seen with
  | nil => simp [dedupByFirstAux]
  | cons r rs ih =>
    by_cases h : key r ∈ seen
    · simpa only [dedupByFirstAux, if_pos h] using ih seen
    · simp only [dedupByFirstAux, if_neg h, List.map_cons, List.nodup_cons]
      refine ⟨fun hmem => ?_, ih _⟩
      exact ((key_mem_dedupByFirstAux key _ rs (key r)).mp hmem).1 (List.mem_cons_self _ _)

theorem mem_map_key_dedupByFirst {ρ κ : Type} [DecidableEq κ] (key : ρ → κ)
    (l : List ρ) (k : κ) : k ∈ (dedupByFirst key l).map key ↔ k ∈ l.map key := by
  rw [dedupByFirst, key_mem_dedupByFirstAux]
  simp

theorem nodup_map_key_dedupByFirst {ρ κ : Type} [DecidableEq κ] (key : ρ → κ)
    (l : List ρ) : ((dedupByFirst key l).map key).Nodup :=
  nodup_map_key_dedupByFirstAux key [] l

theorem mem_dedupByFirst_id {κ : Type} [DecidableEq κ] (l : List κ) (k : κ) :
    k ∈ dedupByFirst id l ↔ k ∈ l := by
  have h := mem_map_key_dedupByFirst (id : κ → κ) l k
  simp only [List.map_id] at h
  exact h

theorem nodup_dedupByFirst_id {κ : Type} [DecidableEq κ] (l : List κ) :
    (dedupByFirst id l).Nodup := by
  have h := nodup_map_key_dedupByFirst (id : κ → κ) l
  simp only [List.map_id] at h
  exact h

theorem find?_filter_of_imp {ρ : Type} (p q : ρ → Bool)
    (hpq : ∀ x, p x = true → q x = true) :
    ∀ l : List ρ, (l.filter q).find? p = l.find? p := by
  intro l
  induction l with
  | nil => rfl
  | cons r rs ih =>
    by_cases hq : q r = true
    · by_cases hp : p r = true
      · simp [List.filter_cons, hq, List.find?, hp]
      · simp only [List.filter_cons, hq, if_pos rfl]
        simp [List.find?, hp, ih]
    · have hp : p r = false := by
        cases hpr : p r
        · rfl
        · exact absurd (hpq r hpr) (by simp [hq])
      simp only [List.filter_cons, hq]
      simp [List.find?, hp, ih]

theorem find?_key_dedupByFirstAux {ρ κ : Type} [DecidableEq κ] (key : ρ → κ) (k : κ) :
    ∀ (seen : List κ) (l : List ρ), k ∉ seen →
      (dedupByFirstAux key seen l).find? (fun r => decide (key r = k)) =
        l.find? (fun r => decide (key r = k)) := by
  intro seen l
  induction l generalizing seen with
  | nil => intro hk; rfl
  | cons r rs ih =>
    intro hk
    by_cases h : key r ∈ seen
    · have hne : ¬ (key r = k) := fun he => hk (he ▸ h)
      simp only [dedupByFirstAux, if_pos h]
      rw [ih seen hk]
      simp [List.find?, hne]
    · simp only [dedupByFirstAux, if_neg h]
      by_cases hrk : key r = k
      · simp [List.find?, hrk]
      · have hk' : k ∉ key r :: seen := by
          intro hc
          rcases List.mem_cons.mp hc with h1 | h1
          · exact hrk h1.symm
          · exact hk h1
        simp only [List.find?, show (decide (key r = k)) = false by simp [hrk]]
        exact ih _ hk'

/-- Keep-first deduplication preserves the first row found for any key. -/
theorem find?_key_dedupByFirst {ρ κ : Type} [DecidableEq κ] (key : ρ → κ)
    (l : List ρ) (k : κ) :
    (dedupByFirst key l).find? (fun r => decide (key r = k)) =
      l.find? (fun r => decide (key r = k)) :=
  find?_key_dedupByFirstAux key k [] l (by simp)

theorem mem_of_mem_dedupByFirst {ρ κ : Type} [DecidableEq κ] (key : ρ → κ)
    (l : List ρ) (x : ρ) (h : x ∈ dedupByFirst key l) : x ∈ l :=
  mem_of_mem_dedupByFirstAux key [] l x h

/-! ## Singles normalizer

Shared by all three transforms: collect the distinct artists having at
least one single, give each a fresh synthetic album identifier, and
rewrite `album_id` on every single. -/

/-- Model of `df[df['is_single'] == True]['artist_id'].unique()` — distinct artist
ids of rows flagged as singles, in first-occurrence order. -/
def artistsWithSingles (df : List Row) : List String :=
  dedupByFirst id ((df.filter (fun r => r.is_single)).map (fun r => r.artist_id))

/-- Pair each listed artist with a fresh identifier, numbering draws from
`i` upwards. -/
def withFreshIds (fresh : Nat → String) : Nat → List String → List (String × String)
  | _, [] => []
  | i, a :: as => (a, fresh i) :: withFreshIds fresh (i + 1) as

/-- Model of `artist_singles_album_map = {artist_id: uuid.uuid4() for artist_id in
artists_with_singles}` — the per-run map, with the `uuid4` draws supplied
by the oracle `fresh`. -/
def singlesAssoc (df : List Row) (fresh : Nat → String) : List (String × String) :=
  withFreshIds fresh 0 (artistsWithSingles df)

/-- Model of `artist_singles_album_map.get(a)`: the synthetic album id of artist
`a`, or null when `a` has no singles. -/
def singlesMap (df : List Row) (fresh : Nat → String) (a : String) : Option String :=
  (singlesAssoc df fresh).lookup a

/-- Model of `relational_database.py` lines 83-86: singles take the map value
(falling back to the row's own `album_id`, which never fires because
every single's artist is in the map); non-singles keep `album_id`. -/
def assignRel (m : String → Option String) (r : Row) : Row :=
  if r.is_single then
    { r with album_id := match m r.artist_id with
        | some v => some v
        | none => r.album_id }
  else r

/-- Model of `document_database.py` lines 46-51 and `document_database2.py` lines
42-47: singles take `map.get(artist_id)` (null when absent); non-singles
keep `album_id`. -/
def assignDoc (m : String → Option String) (r : Row) : Row :=
  if r.is_single then { r with album_id := m r.artist_id } else r

/-! ## Relational transform (`relational_database.py` lines 66-113) -/

/-- A row of the `artists` table. -/
structure ArtistRow where
  artist_id : String
  artist_name : String
deriving DecidableEq

/-- A row of the `albums` table. -/
structure AlbumRow where
  album_id : Option String
  album_name : String
  release_date : Option String
  artist_id : String
deriving DecidableEq

/-- A row of the `tracks` table. -/
structure TrackRow where
  track_id : String
  track_title : String
  duration_seconds : Int
  is_explicit : Bool
  genre : String
  popularity_rating : Int
  total_streams : Int
  album_id : Option String
  artist_id : String
deriving DecidableEq

/-- Model of `df[['artist_id', 'artist_name']].drop_duplicates()` (line 89):
deduplication is over the whole `(artist_id, artist_name)` pair. -/
def artistRows (df' : List Row) : List ArtistRow :=
  dedupByFirst id (df'.map (fun r => ArtistRow.mk r.artist_id r.artist_name))

/-- Model of `singles_albums_data` (lines 91-99): one synthesized "Singles" row per
artist-with-singles, `release_date` null. -/
def singlesAlbumRows (df : List Row) (fresh : Nat → String) : List AlbumRow :=
  (singlesAssoc df fresh).map (fun p => AlbumRow.mk (some p.2) "Singles" none p.1)

/-- Model of `df[df['is_single'] == False][[...]]` (line 100): one album row per
non-single input row. -/
def realAlbumRows (df' : List Row) : List AlbumRow :=
  (df'.filter (fun r => !r.is_single)).map
    (fun r => AlbumRow.mk r.album_id r.album_name r.release_date r.artist_id)

/-- Model of `pd.concat([albums_df, singles_albums_df]).drop_duplicates(subset=['album_id'])`
(line 101): real albums first, then synthesized ones, deduplicated by
`album_id` keeping the first occurrence. -/
def albumRows (df : List Row) (fresh : Nat → String) : List AlbumRow :=
  dedupByFirst (fun a => a.album_id)
    (realAlbumRows (df.map (assignRel (singlesMap df fresh))) ++ singlesAlbumRows df fresh)

/-- Model of `tracks_df` (lines 103-106). -/
def trackRows (df' : List Row) : List TrackRow :=
  df'.map (fun r => TrackRow.mk r.track_id r.track_title r.duration_seconds
    r.is_explicit r.genre r.popularity_rating r.total_streams r.album_id r.artist_id)

/-- The three row-sets, doubling as the relational sink's table contents. -/
structure RelData where
  artists : List ArtistRow
  albums : List AlbumRow
  tracks : List TrackRow
deriving DecidableEq

/-- Model of `relational_database.py` `transform` (lines 66-113): rewrite singles'
`album_id`, then split into the three row-sets. -/
def relTransform (fresh : Nat → String) (df : List Row) : RelData :=
  let df' := df.map (assignRel (singlesMap df fresh))
  RelData.mk (artistRows df') (albumRows df fresh) (trackRows df')

/-! ## Artist-nested document transform (`document_database.py` lines 35-92) -/

/-- A track object nested inside an album group: identifying artist/album
fields are not repeated. -/
structure TrackEntry where
  track_id : String
  track_title : String
  duration_seconds : Int
  is_explicit : Bool
  genre : String
  popularity_rating : Int
  total_streams : Int
deriving DecidableEq

/-- One album group inside an artist document. -/
structure AlbumEntry where
  album_id : String
  album_name : String
  release_date : Option String
  tracks : List TrackEntry
deriving DecidableEq

/-- One artist document, keyed by `_id = artist_id`. -/
structure ArtistDoc where
  _id : String
  artist_name : String
  albums : List AlbumEntry
deriving DecidableEq

/-- The track-field projection used inside album groups (lines 81-84). -/
def projectTrack (r : Row) : TrackEntry :=
  TrackEntry.mk r.track_id r.track_title r.duration_seconds r.is_explicit
    r.genre r.popularity_rating r.total_streams

/-- Lines 64-87: build one album group.  A group whose key is one of the
synthesized singles ids becomes the "Singles" pseudo-album; otherwise the
album attributes come from the group's first row.  (Groups produced by
`groupby` are never empty; the `[]` branch is unreachable.) -/
def mkAlbumEntry (singleVals : List String) (alb : String) (grp : List Row) : AlbumEntry :=
  let tracks := grp.map projectTrack
  if alb ∈ singleVals then AlbumEntry.mk alb "Singles" none tracks
  else
    match grp with
    | first :: _ => AlbumEntry.mk alb first.album_name first.release_date tracks
    | [] => AlbumEntry.mk alb "" none tracks

/-- Model of `document_database.py` `transform` (lines 35-92): rewrite singles,
group by artist then by album. -/
def docTransform (fresh : Nat → String) (df : List Row) : List ArtistDoc :=
  let singleVals := (singlesAssoc df fresh).map Prod.snd
  let df' := df.map (assignDoc (singlesMap df fresh))
  (groupByKey (fun r => r.artist_id) df').map (fun p =>
    ArtistDoc.mk p.1
      (match p.2 with | first :: _ => first.artist_name | [] => "")
      ((groupByOptKey (fun r => r.album_id) p.2).map
        (fun q => mkAlbumEntry singleVals q.1 q.2)))

/-- All track entries of an artist-nested output, across every album group
of every artist document. -/
def flatTracks (docs : List ArtistDoc) : List TrackEntry :=
  (docs.map (fun d => (d.albums.map (fun a => a.tracks)).flatten)).flatten

/-! ## Track-centric document transform (`document_database2.py` lines 32-72) -/

/-- The embedded artist snapshot. -/
structure ArtistSnap where
  artist_id : String
  artist_name : String
deriving DecidableEq

/-- The embedded album snapshot. -/
structure AlbumSnap where
  album_id : Option String
  album_name : String
  release_date : Option String
deriving DecidableEq

/-- One self-contained track document, keyed by `_id = track_id`. -/
structure TrackDoc where
  _id : String
  track_title : String
  duration_seconds : Int
  is_explicit : Bool
  genre : String
  popularity_rating : Int
  total_streams : Int
  artist : ArtistSnap
  album : AlbumSnap
deriving DecidableEq

/-- Lines 51-68: one document per row; for singles the album snapshot is
the "Singles" pseudo-album with null date. -/
def mkTrackDoc (r : Row) : TrackDoc :=
  TrackDoc.mk r.track_id r.track_title r.duration_seconds r.is_explicit
    r.genre r.popularity_rating r.total_streams
    (ArtistSnap.mk r.artist_id r.artist_name)
    (AlbumSnap.mk r.album_id
      (if r.is_single then "Singles" else r.album_name)
      (if r.is_single then none else r.release_date))

/-- Model of `document_database2.py` `transform_to_track_documents` (lines 32-72). -/
def transform_to_track_documents (fresh : Nat → String) (df : List Row) : List TrackDoc :=
  (df.map (assignDoc (singlesMap df fresh))).map mkTrackDoc

/-! ## Facts about the singles map -/

theorem lookup_withFreshIds_of_mem (fresh : Nat → String) :
    ∀ (i : Nat) (as : List String) (a : String), a ∈ as →
      ∃ v, (withFreshIds fresh i as).lookup a = some v := by
  intro i as
  induction as generalizing i with
  | nil => intro a ha; simp at ha
  | cons b bs ih =>
    intro a ha
    by_cases hab : a = b
    · exact ⟨fresh i, by simp [withFreshIds, List.lookup, hab]⟩
    · rcases List.mem_cons.mp ha with h | h
      · exact absurd h hab
      · rcases ih (i + 1) a h with ⟨v, hv⟩
        have hb : (a == b) = false := by simpa using hab
        exact ⟨v, by simp [withFreshIds, List.lookup, hb, hv]⟩

theorem lookup_withFreshIds_of_not_mem (fresh : Nat → String) :
    ∀ (i : Nat) (as : List String) (a : String), a ∉ as →
      (withFreshIds fresh i as).lookup a = none := by
  intro i as
  induction as generalizing i with
  | nil => intro a _; rfl
  | cons b bs ih =>
    intro a ha
    have hab : ¬ a = b := fun h => ha (h ▸ List.mem_cons_self _ _)
    have hbs : a ∉ bs := fun h => ha (List.mem_cons_of_mem _ h)
    have hb : (a == b) = false := by simpa using hab
    simp [withFreshIds, List.lookup, hb, ih (i + 1) a hbs]

theorem mem_of_lookup_withFreshIds (fresh : Nat → String) :
    ∀ (i : Nat) (as : List String) (a : String) (v : String),
      (withFreshIds fresh i as).lookup a = some v → (a, v) ∈ withFreshIds fresh i as := by
  intro i as
  induction as generalizing i with
  | nil => intro a v h; simp [withFreshIds, List.lookup] at h
  | cons b bs ih =>
    intro a v h
    by_cases hab : a = b
    · simp [withFreshIds, List.lookup, hab] at h
      simp [withFreshIds, hab, h]
    · simp only [withFreshIds, List.lookup, show (a == b) = false by simpa using hab] at h
      exact List.mem_cons_of_mem _ (ih (i + 1) a v h)

/-- An artist with at least one single gets a synthetic id. -/
theorem singlesMap_isSome (df : List Row) (fresh : Nat → String) (a : String)
    (ha : a ∈ artistsWithSingles df) : ∃ v, singlesMap df fresh a = some v :=
  lookup_withFreshIds_of_mem fresh 0 (artistsWithSingles df) a ha

/-- An artist with no singles is assigned no synthetic id. -/
theorem singlesMap_eq_none (df : List Row) (fresh : Nat → String) (a : String)
    (ha : a ∉ artistsWithSingles df) : singlesMap df fresh a = none :=
  lookup_withFreshIds_of_not_mem fresh 0 (artistsWithSingles df) a ha

/-- Any id handed out by the map is one of the assoc entries. -/
theorem singlesMap_mem_assoc (df : List Row) (fresh : Nat → String) (a v : String)
    (h : singlesMap df fresh a = some v) : (a, v) ∈ singlesAssoc df fresh :=
  mem_of_lookup_withFreshIds fresh 0 (artistsWithSingles df) a v h

/-! ## Relational bulk load (`relational_database.py` lines 115-145) -/

/-- The three target tables, in the dictionary's key order. -/
inductive TableName
  | artists
  | albums
  | tracks
deriving DecidableEq

/-- Model of `COPY table FROM STDIN WITH CSV`: appends rows one at a time.  The DDL
of `create_tables` (lines 11-41) declares each table's first column as
`PRIMARY KEY`, so a null or duplicate key aborts the copy — and, because
the single `conn.commit()` sits after the loop, the whole transaction. -/
def copyTable {ρ κ : Type} [DecidableEq κ] (key : ρ → Option κ) :
    List ρ → List ρ → Except String (List ρ)
  | [], t => .ok t
  | r :: rs, t =>
    match key r with
    | none => .error "null value in primary key column"
    | some k =>
      if some k ∈ t.map key then .error "duplicate key value violates primary key"
      else copyTable key rs (t ++ [r])

/-- One iteration of the load loop (lines 130-142): an empty row-set is
skipped without touching the sink or the trace; a nonempty one is bulk
copied and recorded in the trace. -/
def loadStep {ρ κ : Type} [DecidableEq κ] (name : TableName) (key : ρ → Option κ)
    (rows t : List ρ) (tr : List TableName) :
    Except String (List ρ × List TableName) :=
  if rows.isEmpty then .ok (t, tr)
  else (copyTable key rows t).map (fun t' => (t', tr ++ [name]))

/-- Primary key of `artists` (`artist_id UUID PRIMARY KEY`). -/
def artistKey (r : ArtistRow) : Option String := some r.artist_id

/-- Primary key of `albums` (`album_id UUID PRIMARY KEY`, null rejected). -/
def albumKey (a : AlbumRow) : Option String := a.album_id

/-- Primary key of `tracks` (`track_id UUID PRIMARY KEY`). -/
def trackKey (r : TrackRow) : Option String := some r.track_id

/-- Model of `load` (lines 115-145): the row-sets are written in the fixed
`insertion_order = ["artists", "albums", "tracks"]`; any copy error
aborts before the commit.  The returned trace lists the tables actually
copied, in order. -/
def relLoad (d : RelData) (s : RelData) : Except String (RelData × List TableName) :=
  match loadStep .artists artistKey d.artists s.artists [] with
  | .error e => .error e
  | .ok (a, tr1) =>
    match loadStep .albums albumKey d.albums s.albums tr1 with
    | .error e => .error e
    | .ok (b, tr2) =>
      match loadStep .tracks trackKey d.tracks s.tracks tr2 with
      | .error e => .error e
      | .ok (t, tr3) => .ok (RelData.mk a b t, tr3)

/-- The sink state after one load attempt inside its transaction: `main`
(lines 157-173) runs `load` under `with psycopg.connect(...)`, which
commits on success and rolls the whole transaction back on any error. -/
def relLoadTx (d : RelData) (s : RelData) : RelData :=
  match relLoad d s with
  | .ok (s', _) => s'
  | .error _ => s

/-! ## Document bulk load (`document_database.py` lines 94-124 and
`document_database2.py` lines 74-104 — the two functions are identical
up to log text) -/

/-- The document sink: a collection addressed by `_id`. -/
def DocSink (δ : Type) : Type := String → Option δ

/-- Model of `operations.ReplaceOne({'_id': ...}, doc, upsert=True)`: replace the
document sharing the key, or insert it when absent. -/
def upsertDoc {δ : Type} (key : δ → String) (s : DocSink δ) (doc : δ) : DocSink δ :=
  fun k => if k = key doc then some doc else s k

/-- Sink-state effect of a successful `collection.bulk_write(requests)`:
one `ReplaceOne` per document, applied in list order. -/
def docLoadState {δ : Type} (key : δ → String) (docs : List δ) (s : DocSink δ) : DocSink δ :=
  docs.foldl (upsertDoc key) s

/-- What one `load` call did: whether it raised, whether a sink connection
was acquired, and whether that connection was released before returning
or re-raising. -/
structure LoadOutcome where
  failed : Bool
  acquired : Bool
  released : Bool
deriving DecidableEq

/-- The connection lifecycle of the document `load`: `MongoClient(...)`
acquisition (a constructor failure is re-raised with nothing acquired),
then `if not documents: return` — an early exit before any
`try/finally` — then `bulk_write` inside `try/except/finally:
client.close()`. -/
def docLoadEffect {δ : Type} (connectOk writeOk : Bool) (docs : List δ) : LoadOutcome :=
  if !connectOk then LoadOutcome.mk true false false
  else if docs.isEmpty then LoadOutcome.mk false true false
  else if writeOk then LoadOutcome.mk false true true
  else LoadOutcome.mk true true true

/-! ## Synthetic data generator (`synthetic_data.py` lines 37-109) -/

/-- Model of `random.randint(lo, hi)`: an arbitrary oracle draw clamped into
`[lo, hi]`. -/
def randint (lo hi x : Nat) : Nat := lo + x % (hi - lo + 1)

/-- Every `random`/`faker` draw the generator makes, as oracle functions
of the draw's position (artist index, album index within the run, single
index).  A fixed oracle models one process run. -/
structure GenOracle where
  artistUuid : Nat → String
  artistName : Nat → String
  albumsPer : Nat → Nat
  albumUuid : Nat → Nat → String
  albumName : Nat → Nat → String
  albumDate : Nat → Nat → String
  albumTrackCount : Nat → Nat → Nat
  trackUuid : Nat → Nat → String
  trackTitle : Nat → Nat → String
  trackGenre : Nat → Nat → String
  trackStreams : Nat → Nat → Nat
  trackDuration : Nat → Nat → Nat
  trackRating : Nat → Nat → Int
  trackExplicit : Nat → Nat → Bool
  chooseArtist : Nat → Nat
  singleUuid : Nat → String
  singleTitle : Nat → String
  singleGenre : Nat → String
  singleStreams : Nat → Nat
  singleDuration : Nat → Nat
  singleRating : Nat → Int
  singleExplicit : Nat → Bool
  singleDate : Nat → String

/-- An artist of the generated pool (`_generate_artists`, lines 15-20). -/
structure GenArtist where
  artist_id : String
  artist_name : String
deriving DecidableEq

/-- An album of the generated pool (`_generate_albums`, lines 22-35). -/
structure GenAlbum where
  album_id : String
  album_name : String
  artist_id : String
  artist_name : String
  release_date : String
  num_tracks : Nat
deriving DecidableEq

/-- Model of `_generate_artists(num_artists, fake)`. -/
def _generate_artists (o : GenOracle) (num_artists : Nat) : List GenArtist :=
  (List.range num_artists).map (fun i => GenArtist.mk (o.artistUuid i) (o.artistName i))

/-- Model of `_generate_albums(artists, fake)`: `random.randint(2, 10)` albums per
artist, each with `random.randint(4, 20)` planned tracks. -/
def _generate_albums (o : GenOracle) (artists : List GenArtist) : List GenAlbum :=
  artists.enum.flatMap (fun p =>
    (List.range (randint 2 10 (o.albumsPer p.1))).map (fun j =>
      GenAlbum.mk (o.albumUuid p.1 j) (o.albumName p.1 j) p.2.artist_id p.2.artist_name
        (o.albumDate p.1 j) (randint 4 20 (o.albumTrackCount p.1 j))))

/-- One album-backed track (lines 64-85): `is_single=False`, album fields
copied from the album. -/
def mkAlbumTrackRow (o : GenOracle) (ai j : Nat) (alb : GenAlbum) : CsvRow :=
  CsvRow.mk (o.trackUuid ai j) (o.trackTitle ai j) alb.artist_id alb.artist_name
    alb.album_id alb.album_name false (o.trackGenre ai j) alb.release_date
    (Int.ofNat (randint 120 600 (o.trackDuration ai j))) (o.trackRating ai j)
    (Int.ofNat (randint 50000 1000000000 (o.trackStreams ai j))) (o.trackExplicit ai j)

/-- All rows the album loop would emit with an unlimited budget. -/
def albumTrackRows (o : GenOracle) (albums : List GenAlbum) : List CsvRow :=
  albums.enum.flatMap (fun p =>
    (List.range p.2.num_tracks).map (fun j => mkAlbumTrackRow o p.1 j p.2))

/-- One gap-filling single (lines 90-109): `album_id` is the literal
string 'none' — the reader's null sentinel — and `is_single=True`. -/
def mkSingleRow (o : GenOracle) (k : Nat) (artist : GenArtist) : CsvRow :=
  CsvRow.mk (o.singleUuid k) (o.singleTitle k) artist.artist_id artist.artist_name
    "none" "Single" true (o.singleGenre k) (o.singleDate k)
    (Int.ofNat (randint 120 300 (o.singleDuration k))) (o.singleRating k)
    (Int.ofNat (randint 50000 1000000000 (o.singleStreams k))) (o.singleExplicit k)

/-- Model of `generate_music_data(num_records, num_artists)` (lines 37-109): the
album loop yields until the budget is reached (`.take`), then the
`while records_yielded < num_records` loop fills the gap with singles,
each picking `random.choice(artists)` — which raises on an empty pool. -/
def generate_music_data (o : GenOracle) (num_records num_artists : Nat) :
    Except String (List CsvRow) :=
  let artists := _generate_artists o num_artists
  let albums := _generate_albums o artists
  let fromAlbums := (albumTrackRows o albums).take num_records
  let need := num_records - fromAlbums.length
  if 0 < need ∧ artists = [] then .error "random.choice on an empty artist pool"
  else .ok (fromAlbums ++ (List.range need).map (fun k =>
    mkSingleRow o k (artists.getD (o.chooseArtist k % artists.length) (GenArtist.mk "" ""))))

/-! ## Field-preservation facts about the normalizer -/

theorem assignRel_artist_id (m : String → Option String) (r : Row) :
    (assignRel m r).artist_id = r.artist_id := by
  unfold assignRel; split <;> rfl

theorem assignRel_artist_name (m : String → Option String) (r : Row) :
    (assignRel m r).artist_name = r.artist_name := by
  unfold assignRel; split <;> rfl

theorem assignRel_is_single (m : String → Option String) (r : Row) :
    (assignRel m r).is_single = r.is_single := by
  unfold assignRel; split <;> rfl

theorem assignRel_release_date (m : String → Option String) (r : Row) :
    (assignRel m r).release_date = r.release_date := by
  unfold assignRel; split <;> rfl

theorem assignRel_not_single (m : String → Option String) (r : Row)
    (hs : r.is_single = false) : assignRel m r = r := by
  simp [assignRel, hs]

theorem assignRel_album_id_of_some (m : String → Option String) (r : Row) (v : String)
    (hs : r.is_single = true) (hm : m r.artist_id = some v) :
    (assignRel m r).album_id = some v := by
  simp [assignRel, hs, hm]

theorem assignDoc_artist_id (m : String → Option String) (r : Row) :
    (assignDoc m r).artist_id = r.artist_id := by
  unfold assignDoc; split <;> rfl

theorem assignDoc_is_single (m : String → Option String) (r : Row) :
    (assignDoc m r).is_single = r.is_single := by
  unfold assignDoc; split <;> rfl

theorem assignDoc_release_date (m : String → Option String) (r : Row) :
    (assignDoc m r).release_date = r.release_date := by
  unfold assignDoc; split <;> rfl

theorem assignDoc_not_single (m : String → Option String) (r : Row)
    (hs : r.is_single = false) : assignDoc m r = r := by
  simp [assignDoc, hs]

theorem assignDoc_album_id_of_single (m : String → Option String) (r : Row)
    (hs : r.is_single = true) : (assignDoc m r).album_id = m r.artist_id := by
  simp [assignDoc, hs]

/-- A row of `df` flagged as a single puts its artist among the artists
with singles. -/
theorem artist_mem_withSingles (df : List Row) (r : Row) (hr : r ∈ df)
    (hs : r.is_single = true) : r.artist_id ∈ artistsWithSingles df := by
  unfold artistsWithSingles
  rw [mem_dedupByFirst_id]
  exact List.mem_map_of_mem _ (List.mem_filter.mpr ⟨hr, hs⟩)

/-- Conversely, every artist with singles is witnessed by some single row. -/
theorem withSingles_mem_exists (df : List Row) (a : String)
    (ha : a ∈ artistsWithSingles df) :
    ∃ r ∈ df, r.is_single = true ∧ r.artist_id = a := by
  unfold artistsWithSingles at ha
  rw [mem_dedupByFirst_id] at ha
  rcases List.mem_map.mp ha with ⟨r, hr, hra⟩
  rcases List.mem_filter.mp hr with ⟨hrdf, hrs⟩
  exact ⟨r, hrdf, hrs, hra⟩

/-- An assoc entry's artist occurs in the listed artists. -/
theorem fst_mem_withFreshIds (fresh : Nat → String) :
    ∀ (i : Nat) (as : List String) (a v : String),
      (a, v) ∈ withFreshIds fresh i as → a ∈ as := by
  intro i as
  induction as generalizing i with
  | nil => intro a v h; simp [withFreshIds] at h
  | cons b bs ih =>
    intro a v h
    rcases List.mem_cons.mp h with h | h
    · have : a = b := congrArg Prod.fst h
      exact this ▸ List.mem_cons_self _ _
    · exact List.mem_cons_of_mem _ (ih (i + 1) a v h)

/-! ## Concrete fixtures used by witnesses and counterexamples -/

/-- A plain non-single extracted row. -/
def baseRow : Row :=
  Row.mk "t1" "Song One" "a1" "Artist X" (some "alb1") "Album A" false "Pop"
    (some "2020-01-01") 200 5 1000 false

/-- A single by the same artist. -/
def singleRow : Row :=
  Row.mk "t2" "Song Two" "a1" "Artist X" none "Single" true "Pop"
    (some "2021-02-02") 180 6 2000 false

/-- A generic fresh-identifier oracle. -/
def freshA : Nat → String := fun n => "synthetic-" ++ toString n

/-! ## C3 — singles invariant (all three transforms) -/

/-- Claim C3: in every transform, every single of a given artist receives
the one synthetic album id the per-run map assigns to that artist (so all
of an artist's singles agree); rows with `is_single = false` keep their
input `album_id`; an artist outside `artistsWithSingles` — one with zero
singles — is assigned no synthetic id. -/
theorem C3_singles_invariant (df : List Row) (fresh : Nat → String) :
    (∀ r ∈ df, r.is_single = true →
      ∃ v, singlesMap df fresh r.artist_id = some v ∧
        (assignRel (singlesMap df fresh) r).album_id = some v ∧
        (assignDoc (singlesMap df fresh) r).album_id = some v) ∧
    (∀ r : Row, r.is_single = false →
      (assignRel (singlesMap df fresh) r).album_id = r.album_id ∧
      (assignDoc (singlesMap df fresh) r).album_id = r.album_id) ∧
    (∀ r1 ∈ df, ∀ r2 ∈ df, r1.is_single = true → r2.is_single = true →
      r1.artist_id = r2.artist_id →
      (assignRel (singlesMap df fresh) r1).album_id =
        (assignRel (singlesMap df fresh) r2).album_id ∧
      (assignDoc (singlesMap df fresh) r1).album_id =
        (assignDoc (singlesMap df fresh) r2).album_id) ∧
    (∀ a : String, a ∉ artistsWithSingles df → singlesMap df fresh a = none) := by
  have single_val : ∀ r ∈ df, r.is_single = true →
      ∃ v, singlesMap df fresh r.artist_id = some v ∧
        (assignRel (singlesMap df fresh) r).album_id = some v ∧
        (assignDoc (singlesMap df fresh) r).album_id = some v := by
    intro r hr hs
    rcases singlesMap_isSome df fresh r.artist_id (artist_mem_withSingles df r hr hs)
      with ⟨v, hv⟩
    exact ⟨v, hv, assignRel_album_id_of_some _ r v hs hv,
      by rw [assignDoc_album_id_of_single _ r hs, hv]⟩
  refine ⟨single_val, ?_, ?_, ?_⟩
  · intro r hs
    rw [assignRel_not_single _ r hs, assignDoc_not_single _ r hs]
    exact ⟨rfl, rfl⟩
  · intro r1 h1 r2 h2 hs1 hs2 ha
    rcases single_val r1 h1 hs1 with ⟨v1, hv1, ha1, hd1⟩
    rcases single_val r2 h2 hs2 with ⟨v2, hv2, ha2, hd2⟩
    have : v1 = v2 := by
      rw [ha] at hv1
      exact Option.some.inj (hv1.symm.trans hv2)
    rw [ha1, ha2, hd1, hd2, this]
    exact ⟨rfl, rfl⟩
  · exact singlesMap_eq_none df fresh

/-- Witness for C3 at a concrete two-row input. -/
theorem C3_singles_invariant_witness :
    ∃ v, singlesMap [baseRow, singleRow] freshA (singleRow.artist_id) = some v ∧
      (assignRel (singlesMap [baseRow, singleRow] freshA) singleRow).album_id = some v ∧
      (assignDoc (singlesMap [baseRow, singleRow] freshA) singleRow).album_id = some v :=
  (C3_singles_invariant [baseRow, singleRow] freshA).1 singleRow (by decide) rfl

/-! ## C4 — artists row-set deduplication -/

/-- Same artist id as `baseRow`, different display name. -/
def renamedRow : Row := { baseRow with track_id := "t9", artist_name := "Artist Y" }

/-- Counterexample to claim C4: with the same `artist_id` appearing under two
different `artist_name` values, `drop_duplicates()` over the whole
`(artist_id, artist_name)` pair keeps both rows, so the artists row-set
does *not* contain exactly one row per distinct `artist_id`. -/
theorem C4_counterexample :
    ((relTransform freshA [baseRow, renamedRow]).artists.map (fun a => a.artist_id)) =
      ["a1", "a1"] ∧
    ¬ ((relTransform freshA [baseRow, renamedRow]).artists.map
        (fun a => a.artist_id)).Nodup := by
  decide

/-- Amended claim C4: the artists row-set contains exactly one row per
distinct `(artist_id, artist_name)` pair of the input — no duplicate
rows, and a pair appears in the row-set iff some input row carries it. -/
theorem C4_artists_dedup (fresh : Nat → String) (df : List Row) :
    (relTransform fresh df).artists.Nodup ∧
    (∀ p : ArtistRow, p ∈ (relTransform fresh df).artists ↔
      p ∈ df.map (fun r => ArtistRow.mk r.artist_id r.artist_name)) := by
  have hmaps : (df.map (assignRel (singlesMap df fresh))).map
      (fun r => ArtistRow.mk r.artist_id r.artist_name) =
      df.map (fun r => ArtistRow.mk r.artist_id r.artist_name) := by
    rw [List.map_map]
    exact List.map_congr_left fun r _ => by
      simp [Function.comp, assignRel_artist_id, assignRel_artist_name]
  constructor
  · exact nodup_dedupByFirst_id _
  · intro p
    show p ∈ dedupByFirst id ((df.map (assignRel (singlesMap df fresh))).map
      (fun r => ArtistRow.mk r.artist_id r.artist_name)) ↔ _
    rw [mem_dedupByFirst_id, hmaps]

/-! ## C7 — unparseable release dates -/

/-- A CSV row whose `release_date` text parses as no date. -/
def badDateRow : CsvRow :=
  CsvRow.mk "t7" "Song Seven" "a7" "Artist Z" "alb7" "Album Z" false "Rock"
    "notadate" 210 4 700 false

/-- Counterexample to claim C7: for an unparseable `release_date`, the
document-variant extract coerces to null, but the relational pipeline
performs no date parsing at all — the raw text survives into the albums
row-set, so not every output shape carries null. -/
theorem C7_counterexample :
    parseDate "notadate" = none ∧
    (relExtractRow badDateRow).release_date = some "notadate" ∧
    ((relTransform freshA (relExtract [badDateRow])).albums.map
      (fun a => a.release_date)) = [some "notadate"] ∧
    (docExtractRow badDateRow).release_date = none := by
  decide

/-- Amended claim C7: a row with an unparseable `release_date` is coerced to
null by the document-variant extracts and carries null into the
track-centric document and (as the group head) into artist-nested album
entries, with no row dropped by any extract; the relational extract, by
contrast, nulls only the literal sentinel "none" and otherwise passes the
raw text through unchanged. -/
theorem C7_null_handling (r : CsvRow) (hp : parseDate r.release_date = none) :
    (docExtractRow r).release_date = none ∧
    (relExtractRow r).release_date =
      (if r.release_date = "none" then none else some r.release_date) ∧
    (∀ rows : List CsvRow,
      (docExtract rows).length = rows.length ∧ (relExtract rows).length = rows.length) ∧
    (∀ m : String → Option String,
      (mkTrackDoc (assignDoc m (docExtractRow r))).album.release_date = none) ∧
    (∀ (vals : List String) (alb : String) (h : Row) (t : List Row),
      h.release_date = none → (mkAlbumEntry vals alb (h :: t)).release_date = none) := by
  refine ⟨?_, ?_, ?_, ?_, ?_⟩
  · unfold docExtractRow naField
    by_cases hn : r.release_date = "none"
    · simp [hn]
    · simp [hn, hp]
  · unfold relExtractRow naField
    by_cases hn : r.release_date = "none" <;> simp [hn]
  · intro rows
    exact ⟨List.length_map rows _, List.length_map rows _⟩
  · intro m
    have hrd : (assignDoc m (docExtractRow r)).release_date = none := by
      rw [assignDoc_release_date]
      unfold docExtractRow naField
      by_cases hn : r.release_date = "none"
      · simp [hn]
      · simp [hn, hp]
    unfold mkTrackDoc
    by_cases hs : (assignDoc m (docExtractRow r)).is_single = true <;> simp [hs, hrd]
  · intro vals alb h t hd
    unfold mkAlbumEntry
    by_cases hv : alb ∈ vals
    · simp [hv]
    · simp [hv, hd]

/-- Witness for C7 at the concrete bad-date row. -/
theorem C7_null_handling_witness :
    (docExtractRow badDateRow).release_date = none ∧
    (relExtractRow badDateRow).release_date =
      (if badDateRow.release_date = "none" then none
       else some badDateRow.release_date) :=
  ⟨(C7_null_handling badDateRow (by decide)).1,
   (C7_null_handling badDateRow (by decide)).2.1⟩

/-! ## C9 — connection release in the document load -/

/-- Counterexample to claim C9: calling the document load with an empty
document list acquires the client but returns through the
`if not documents: return` early exit, before the `try/finally` that
closes it — the connection is not released. -/
theorem C9_counterexample :
    (docLoadEffect true true ([] : List TrackDoc)).acquired = true ∧
    (docLoadEffect true true ([] : List TrackDoc)).released = false := by
  decide

/-- Amended claim C9: for a *nonempty* document list, any acquired
connection is released before the load returns or re-raises, whatever the
write outcome; and the only way to acquire nothing is a constructor
failure. -/
theorem C9_connection_release {δ : Type} (connectOk writeOk : Bool) (docs : List δ)
    (hne : docs ≠ []) :
    ((docLoadEffect connectOk writeOk docs).acquired = true →
      (docLoadEffect connectOk writeOk docs).released = true) ∧
    ((docLoadEffect connectOk writeOk docs).acquired = false → connectOk = false) := by
  cases docs with
  | nil => exact absurd rfl hne
  | cons d ds => cases connectOk <;> cases writeOk <;> simp [docLoadEffect]

/-- Witness for C9 at a concrete singleton batch with a failing write. -/
theorem C9_connection_release_witness :
    ((docLoadEffect true false (["d"] : List String)).acquired = true →
      (docLoadEffect true false (["d"] : List String)).released = true) ∧
    ((docLoadEffect true false (["d"] : List String)).acquired = false →
      true = false) :=
  C9_connection_release true false ["d"] (by decide)

/-! ## C5 — album-id collision keeps the genuine album -/

/-- In a list with no duplicate keys, the member carrying a key is what
`find?` returns for that key. -/
theorem find?_eq_of_mem_nodupKeys {ρ κ : Type} [DecidableEq κ] (key : ρ → κ) :
    ∀ (l : List ρ) (a : ρ) (k : κ), (l.map key).Nodup → a ∈ l → key a = k →
      l.find? (fun x => decide (key x = k)) = some a := by
  intro l
  induction l with
  | nil => intro a k _ ha _; simp at ha
  | cons r rs ih =>
    intro a k hn ha hk
    simp only [List.map_cons, List.nodup_cons] at hn
    rcases List.mem_cons.mp ha with rfl | ha
    · simp [List.find?, hk]
    · have hrk : ¬ key r = k := by
        intro he
        have hmem : key a ∈ rs.map key := List.mem_map_of_mem key ha
        rw [hk, ← he] at hmem
        exact hn.1 hmem
      simp only [List.find?, show decide (key r = k) = false by simp [hrk]]
      exact ih a k hn.2 ha hk

/-- Claim C5: if an album id is carried by a genuine (non-single) album row,
then after concatenating real albums before synthesized ones and
deduplicating by `album_id` (keeping the first occurrence), the row kept
for that id is the first genuine row — a synthesized "Singles" row never
overwrites it, and every surviving row with that id is genuine. -/
theorem C5_collision_keeps_real (df : List Row) (fresh : Nat → String) (k : Option String)
    (hk : k ∈ (realAlbumRows (df.map (assignRel (singlesMap df fresh)))).map
      (fun a => a.album_id)) :
    (albumRows df fresh).find? (fun a => decide (a.album_id = k)) =
      (realAlbumRows (df.map (assignRel (singlesMap df fresh)))).find?
        (fun a => decide (a.album_id = k)) ∧
    (∀ a ∈ albumRows df fresh, a.album_id = k →
      a ∈ realAlbumRows (df.map (assignRel (singlesMap df fresh)))) := by
  have hdef : albumRows df fresh = dedupByFirst (fun a => a.album_id)
      (realAlbumRows (df.map (assignRel (singlesMap df fresh))) ++
        singlesAlbumRows df fresh) := rfl
  have hfind : (albumRows df fresh).find? (fun a => decide (a.album_id = k)) =
      (realAlbumRows (df.map (assignRel (singlesMap df fresh)))).find?
        (fun a => decide (a.album_id = k)) := by
    rw [hdef]
    have h1 := find?_key_dedupByFirst (fun a : AlbumRow => a.album_id)
      (realAlbumRows (df.map (assignRel (singlesMap df fresh))) ++
        singlesAlbumRows df fresh) k
    simp only at h1
    rw [h1, List.find?_append]
    have hsome : ((realAlbumRows (df.map (assignRel (singlesMap df fresh)))).find?
        (fun a => decide (a.album_id = k))).isSome := by
      rw [List.find?_isSome]
      rcases List.mem_map.mp hk with ⟨a, ha, hak⟩
      exact ⟨a, ha, by simp [hak]⟩
    exact Option.or_of_isSome hsome
  refine ⟨hfind, ?_⟩
  intro a ha hak
  have hnodup : ((albumRows df fresh).map (fun a => a.album_id)).Nodup := by
    rw [hdef]; exact nodup_map_key_dedupByFirst _ _
  have hfa : (albumRows df fresh).find? (fun x => decide (x.album_id = k)) = some a :=
    find?_eq_of_mem_nodupKeys (fun x => x.album_id) (albumRows df fresh) a k hnodup ha hak
  rw [hfind] at hfa
  exact List.mem_of_find?_eq_some hfa

/-- A fresh-id oracle engineered to collide with the genuine album id. -/
def freshCollide : Nat → String := fun _ => "alb1"

/-- Witness for C5 at a concrete collision. -/
theorem C5_collision_keeps_real_witness :
    (albumRows [baseRow, singleRow] freshCollide).find?
        (fun a => decide (a.album_id = some "alb1")) =
      (realAlbumRows ([baseRow, singleRow].map
        (assignRel (singlesMap [baseRow, singleRow] freshCollide)))).find?
        (fun a => decide (a.album_id = some "alb1")) :=
  (C5_collision_keeps_real [baseRow, singleRow] freshCollide (some "alb1") (by decide)).1

/-! ## C2 — referential completeness of the relational transform -/

/-- Every row of the rewritten frame contributes its artist pair to the
artists row-set. -/
theorem artist_id_mem_artistRows (df' : List Row) (r' : Row) (hr : r' ∈ df') :
    r'.artist_id ∈ (artistRows df').map (fun a => a.artist_id) := by
  have hpair : ArtistRow.mk r'.artist_id r'.artist_name ∈
      df'.map (fun r => ArtistRow.mk r.artist_id r.artist_name) :=
    List.mem_map_of_mem _ hr
  have hmem : ArtistRow.mk r'.artist_id r'.artist_name ∈ artistRows df' := by
    unfold artistRows
    rw [mem_dedupByFirst_id]
    exact hpair
  exact List.mem_map_of_mem (fun a => a.artist_id) hmem

/-- Claim C2: in the relational transform's output, every track's
`album_id` is a key of the albums row-set, every track's `artist_id` is a
key of the artists row-set, and every album row's `artist_id` is a key of
the artists row-set — for every input. -/
theorem C2_referential_integrity (df : List Row) (fresh : Nat → String) :
    (∀ t ∈ (relTransform fresh df).tracks,
      t.album_id ∈ (relTransform fresh df).albums.map (fun a => a.album_id) ∧
      t.artist_id ∈ (relTransform fresh df).artists.map (fun a => a.artist_id)) ∧
    (∀ alb ∈ (relTransform fresh df).albums,
      alb.artist_id ∈ (relTransform fresh df).artists.map (fun a => a.artist_id)) := by
  simp only [relTransform]
  have hwith : ∀ a ∈ artistsWithSingles df,
      a ∈ (artistRows (df.map (assignRel (singlesMap df fresh)))).map
        (fun x => x.artist_id) := by
    intro a ha
    rcases withSingles_mem_exists df a ha with ⟨r, hrdf, _, hra⟩
    have h1 : assignRel (singlesMap df fresh) r ∈ df.map (assignRel (singlesMap df fresh)) :=
      List.mem_map_of_mem _ hrdf
    have h2 := artist_id_mem_artistRows _ _ h1
    rw [assignRel_artist_id, hra] at h2
    exact h2
  have album_key_mem : ∀ r' ∈ df.map (assignRel (singlesMap df fresh)),
      r'.album_id ∈ (albumRows df fresh).map (fun a => a.album_id) := by
    intro r' hr'
    rcases List.mem_map.mp hr' with ⟨r, hrdf, hrr⟩
    have hkeys : r'.album_id ∈
        (realAlbumRows (df.map (assignRel (singlesMap df fresh))) ++
          singlesAlbumRows df fresh).map (fun a => a.album_id) := by
      cases hs : r.is_single with
      | true =>
        rcases singlesMap_isSome df fresh r.artist_id
          (artist_mem_withSingles df r hrdf hs) with ⟨v, hv⟩
        have hra : r'.album_id = some v := by
          rw [← hrr]; exact assignRel_album_id_of_some _ r v hs hv
        have hassoc := singlesMap_mem_assoc df fresh r.artist_id v hv
        have hrow : AlbumRow.mk (some v) "Singles" none r.artist_id ∈
            singlesAlbumRows df fresh :=
          List.mem_map_of_mem (fun p => AlbumRow.mk (some p.2) "Singles" none p.1) hassoc
        rw [hra, List.map_append, List.mem_append]
        exact Or.inr (by
          have := List.mem_map_of_mem (fun a => a.album_id) hrow
          exact this)
      | false =>
        have hreq : r' = r := by rw [← hrr]; exact assignRel_not_single _ r hs
        have hfilt : r' ∈ (df.map (assignRel (singlesMap df fresh))).filter
            (fun x => !x.is_single) :=
          List.mem_filter.mpr ⟨hr', by rw [hreq, hs]; rfl⟩
        have hrow : AlbumRow.mk r'.album_id r'.album_name r'.release_date r'.artist_id ∈
            realAlbumRows (df.map (assignRel (singlesMap df fresh))) :=
          List.mem_map_of_mem
            (fun x => AlbumRow.mk x.album_id x.album_name x.release_date x.artist_id) hfilt
        rw [List.map_append, List.mem_append]
        exact Or.inl (List.mem_map_of_mem (fun a => a.album_id) hrow)
    have hdedup := (mem_map_key_dedupByFirst (fun a => a.album_id)
      (realAlbumRows (df.map (assignRel (singlesMap df fresh))) ++
        singlesAlbumRows df fresh) r'.album_id).mpr hkeys
    exact hdedup
  refine ⟨?_, ?_⟩
  · intro t ht
    rcases List.mem_map.mp ht with ⟨r', hr', hteq⟩
    have h1 := album_key_mem r' hr'
    have h2 := artist_id_mem_artistRows _ r' hr'
    subst hteq
    exact ⟨h1, h2⟩
  · intro alb halb
    have hdef : albumRows df fresh = dedupByFirst (fun a : AlbumRow => a.album_id)
        (realAlbumRows (df.map (assignRel (singlesMap df fresh))) ++
          singlesAlbumRows df fresh) := rfl
    have hmem : alb ∈ realAlbumRows (df.map (assignRel (singlesMap df fresh))) ++
        singlesAlbumRows df fresh :=
      mem_of_mem_dedupByFirst (fun a : AlbumRow => a.album_id) _ alb (hdef ▸ halb)
    rcases List.mem_append.mp hmem with hreal | hsing
    · rcases List.mem_map.mp hreal with ⟨r', hr', haeq⟩
      have h2 := artist_id_mem_artistRows _ r' (List.mem_of_mem_filter hr')
      subst haeq
      exact h2
    · rcases List.mem_map.mp hsing with ⟨p, hp, haeq⟩
      have hfst : p.1 ∈ artistsWithSingles df :=
        fst_mem_withFreshIds fresh 0 (artistsWithSingles df) p.1 p.2
          (by rw [← Prod.mk.eta (p := p)] at hp; exact hp)
      have h2 := hwith p.1 hfst
      subst haeq
      exact h2

/-- The first track row of the witness input, as emitted by the
relational transform. -/
def witTrack : TrackRow := TrackRow.mk "t1" "Song One" 200 false "Pop" 5 1000 (some "alb1") "a1"

/-- Witness for C2 at a concrete two-row input. -/
theorem C2_referential_integrity_witness :
    witTrack.album_id ∈
      (relTransform freshA [baseRow, singleRow]).albums.map (fun a => a.album_id) ∧
    witTrack.artist_id ∈
      (relTransform freshA [baseRow, singleRow]).artists.map (fun a => a.artist_id) :=
  (C2_referential_integrity [baseRow, singleRow] freshA).1 witTrack (by decide)

/-! ## Loader lemmas (C1, C8) -/

/-- A successful copy appends exactly the given rows. -/
theorem copyTable_ok {ρ κ : Type} [DecidableEq κ] (key : ρ → Option κ) :
    ∀ (rows t t' : List ρ), copyTable key rows t = .ok t' → t' = t ++ rows := by
  intro rows
  induction rows with
  | nil =>
    intro t t' h
    simp only [copyTable] at h
    cases h
    simp
  | cons r rs ih =>
    intro t t' h
    cases hk : key r with
    | none => simp [copyTable, hk] at h
    | some k =>
      by_cases hmem : some k ∈ t.map key
      · simp [copyTable, hk, hmem] at h
      · simp only [copyTable, hk, hmem, if_neg] at h
        rw [ih (t ++ [r]) t' (by simpa using h), List.append_assoc]
        rfl

/-- Copying a batch whose head key is already present fails. -/
theorem copyTable_cons_error {ρ κ : Type} [DecidableEq κ] (key : ρ → Option κ)
    (r : ρ) (rs t : List ρ) (h : key r ∈ t.map key) :
    ∃ e, copyTable key (r :: rs) t = .error e := by
  cases hk : key r with
  | none => exact ⟨"null value in primary key column", by simp [copyTable, hk]⟩
  | some k =>
    rw [hk] at h
    exact ⟨"duplicate key value violates primary key", by simp [copyTable, hk, h]⟩

/-- A successful load step appends the rows and extends the trace iff the
row-set was nonempty. -/
theorem loadStep_ok {ρ κ : Type} [DecidableEq κ] (name : TableName) (key : ρ → Option κ)
    (rows t : List ρ) (tr : List TableName) (t2 : List ρ) (tr2 : List TableName)
    (h : loadStep name key rows t tr = .ok (t2, tr2)) :
    t2 = t ++ rows ∧ tr2 = tr ++ (if rows.isEmpty then [] else [name]) := by
  unfold loadStep at h
  by_cases he : rows.isEmpty = true
  · rw [if_pos he] at h
    cases h
    rw [List.isEmpty_iff] at he
    subst he
    simp
  · rw [if_neg he] at h
    cases hc : copyTable key rows t with
    | error e => rw [hc] at h; simp [Except.map] at h
    | ok tnew =>
      rw [hc] at h
      simp only [Except.map] at h
      injection h with h
      injection h with h1 h2
      refine ⟨h1 ▸ copyTable_ok key rows t tnew hc, ?_⟩
      rw [← h2]
      simp [he]

/-- A failing copy fails the step. -/
theorem loadStep_error {ρ κ : Type} [DecidableEq κ] (name : TableName)
    (key : ρ → Option κ) (rows t : List ρ) (tr : List TableName) (e : String)
    (hc : copyTable key rows t = .error e) (hne : rows.isEmpty = false) :
    loadStep name key rows t tr = .error e := by
  simp [loadStep, hne, hc, Except.map]

/-- Characterization of a successful relational load: every row-set is
appended to its table, and the trace lists exactly the nonempty tables in
the fixed artists → albums → tracks order. -/
theorem relLoad_ok (d s : RelData) (s' : RelData) (tr : List TableName)
    (h : relLoad d s = .ok (s', tr)) :
    s'.artists = s.artists ++ d.artists ∧ s'.albums = s.albums ++ d.albums ∧
    s'.tracks = s.tracks ++ d.tracks ∧
    tr = ((if d.artists.isEmpty then [] else [TableName.artists]) ++
          (if d.albums.isEmpty then [] else [TableName.albums])) ++
         (if d.tracks.isEmpty then [] else [TableName.tracks]) := by
  unfold relLoad at h
  cases h1 : loadStep TableName.artists artistKey d.artists s.artists [] with
  | error e => rw [h1] at h; simp at h
  | ok p1 =>
    obtain ⟨a, tr1⟩ := p1
    rw [h1] at h
    simp only at h
    cases h2 : loadStep TableName.albums albumKey d.albums s.albums tr1 with
    | error e => rw [h2] at h; simp at h
    | ok p2 =>
      obtain ⟨b, tr2⟩ := p2
      rw [h2] at h
      simp only at h
      cases h3 : loadStep TableName.tracks trackKey d.tracks s.tracks tr2 with
      | error e => rw [h3] at h; simp at h
      | ok p3 =>
        obtain ⟨t, tr3⟩ := p3
        rw [h3] at h
        simp only at h
        cases h
        obtain ⟨ha1, ha2⟩ := loadStep_ok _ _ _ _ _ _ _ h1
        obtain ⟨hb1, hb2⟩ := loadStep_ok _ _ _ _ _ _ _ h2
        obtain ⟨ht1, ht2⟩ := loadStep_ok _ _ _ _ _ _ _ h3
        subst ha1 ha2 hb1 hb2 ht1 ht2
        refine ⟨rfl, rfl, rfl, ?_⟩
        simp only [List.nil_append]

/-- After a successful load of a nonempty dataset, running the same load
again fails: the first nonempty row-set's head key is already stored. -/
theorem relLoad_again_errors (d s s' : RelData) (tr : List TableName)
    (h : relLoad d s = .ok (s', tr))
    (hne : ¬ (d.artists = [] ∧ d.albums = [] ∧ d.tracks = [])) :
    ∃ e, relLoad d s' = .error e := by
  obtain ⟨ha, hb, ht, -⟩ := relLoad_ok d s s' tr h
  cases hda : d.artists with
  | cons r rs =>
    have hmem : artistKey r ∈ s'.artists.map artistKey := by
      rw [ha, hda]
      exact List.mem_map_of_mem artistKey (by simp)
    obtain ⟨e, he⟩ := copyTable_cons_error artistKey r rs s'.artists hmem
    refine ⟨e, ?_⟩
    have hstep := loadStep_error TableName.artists artistKey (r :: rs) s'.artists [] e he rfl
    unfold relLoad
    rw [hda, hstep]
  | nil =>
    have hstep1 : loadStep TableName.artists artistKey ([] : List ArtistRow)
        s'.artists [] = .ok (s'.artists, []) := by simp [loadStep]
    cases hdb : d.albums with
    | cons r rs =>
      have hmem : albumKey r ∈ s'.albums.map albumKey := by
        rw [hb, hdb]
        exact List.mem_map_of_mem albumKey (by simp)
      obtain ⟨e, he⟩ := copyTable_cons_error albumKey r rs s'.albums hmem
      refine ⟨e, ?_⟩
      have hstep := loadStep_error TableName.albums albumKey (r :: rs) s'.albums [] e he rfl
      unfold relLoad
      rw [hda, hdb, hstep1]
      simp only
      rw [hstep]
    | nil =>
      have hstep2 : loadStep TableName.albums albumKey ([] : List AlbumRow)
          s'.albums [] = .ok (s'.albums, []) := by simp [loadStep]
      cases hdt : d.tracks with
      | nil => exact absurd ⟨hda, hdb, hdt⟩ hne
      | cons r rs =>
        have hmem : trackKey r ∈ s'.tracks.map trackKey := by
          rw [ht, hdt]
          exact List.mem_map_of_mem trackKey (by simp)
        obtain ⟨e, he⟩ := copyTable_cons_error trackKey r rs s'.tracks hmem
        refine ⟨e, ?_⟩
        have hstep := loadStep_error TableName.tracks trackKey (r :: rs) s'.tracks [] e he rfl
        unfold relLoad
        rw [hda, hdb, hdt, hstep1]
        simp only
        rw [hstep2]
        simp only
        rw [hstep]

/-- The value of the document sink at a key after a bulk write: the last
written document with that key, else the prior value. -/
theorem docLoadState_apply {δ : Type} (key : δ → String) :
    ∀ (docs : List δ) (s : DocSink δ) (k : String),
      docLoadState key docs s k =
        (match (docs.reverse).find? (fun d => decide (key d = k)) with
         | some d => some d
         | none => s k) := by
  intro docs
  induction docs with
  | nil => intro s k; rfl
  | cons d ds ih =>
    intro s k
    have hl : docLoadState key (d :: ds) s = docLoadState key ds (upsertDoc key s d) := rfl
    rw [hl, ih]
    have hr : (d :: ds).reverse = ds.reverse ++ [d] := by simp
    rw [hr, List.find?_append]
    cases hf : (ds.reverse).find? (fun x => decide (key x = k)) with
    | some d' => simp
    | none =>
      simp only [Option.none_or]
      by_cases hk : key d = k
      · subst hk
        simp [List.find?, upsertDoc]
      · have hkk : ¬ k = key d := fun he => hk he.symm
        simp [List.find?, hk, upsertDoc, hkk]

/-! ## C1 — idempotence of the two loads -/

/-- Claim C1: applying the relational load twice with the same transformed
dataset yields the same stored state as applying it once (the transaction
of the second, insert-only run aborts on the duplicate keys and commits
nothing), and applying the document load's upsert-by-key bulk write twice
yields the same sink state as applying it once. -/
theorem C1_load_idempotent :
    (∀ (d s : RelData), relLoadTx d (relLoadTx d s) = relLoadTx d s) ∧
    (∀ (δ : Type) (key : δ → String) (docs : List δ) (s : DocSink δ),
      docLoadState key docs (docLoadState key docs s) = docLoadState key docs s) := by
  constructor
  · intro d s
    cases h : relLoad d s with
    | error e =>
      have hs : relLoadTx d s = s := by simp [relLoadTx, h]
      rw [hs, hs]
    | ok p =>
      obtain ⟨s', tr⟩ := p
      have hs : relLoadTx d s = s' := by simp [relLoadTx, h]
      rw [hs]
      by_cases hall : d.artists = [] ∧ d.albums = [] ∧ d.tracks = []
      · have hok : relLoad d s' = .ok (s', []) := by
          obtain ⟨h1, h2, h3⟩ := hall
          cases s' with
          | mk a b t => simp [relLoad, loadStep, h1, h2, h3]
        simp [relLoadTx, hok]
      · obtain ⟨e, he⟩ := relLoad_again_errors d s s' tr h hall
        simp [relLoadTx, he]
  · intro δ key docs s
    funext k
    simp only [docLoadState_apply]
    cases hf : (docs.reverse).find? (fun d => decide (key d = k)) <;> simp

/-! ## C8 — fixed order, empty skipping, atomicity -/

/-- Claim C8: an empty row-set is skipped without error; a successful load
commits all three row-sets together, having written them in the fixed
artists → albums → tracks order (witnessed by the trace, which lists
exactly the nonempty tables in that order); on any error nothing is
committed and the transactional state is unchanged. -/
theorem C8_relational_load :
    (∀ (ρ κ : Type) (instκ : DecidableEq κ) (name : TableName) (key : ρ → Option κ)
      (t : List ρ) (tr : List TableName),
      loadStep name key [] t tr = .ok (t, tr)) ∧
    (∀ (d s : RelData),
      match relLoad d s with
      | .ok p =>
          p.1.artists = s.artists ++ d.artists ∧ p.1.albums = s.albums ++ d.albums ∧
          p.1.tracks = s.tracks ++ d.tracks ∧
          p.2 = ((if d.artists.isEmpty then [] else [TableName.artists]) ++
                 (if d.albums.isEmpty then [] else [TableName.albums])) ++
                (if d.tracks.isEmpty then [] else [TableName.tracks])
      | .error _ => relLoadTx d s = s) := by
  constructor
  · intro ρ κ instκ name key t tr
    simp [loadStep]
  · intro d s
    cases h : relLoad d s with
    | ok p =>
      obtain ⟨s', tr⟩ := p
      exact relLoad_ok d s s' tr h
    | error e => simp [relLoadTx, h]

/-! ## Grouping lemmas (C6) -/

theorem count_filter_eq_zero {α : Type} [DecidableEq α] (p : α → Bool) (l : List α)
    (a : α) (h : ¬ p a = true) : (l.filter p).count a = 0 :=
  List.count_eq_zero.mpr (fun hm => h (List.mem_filter.mp hm).2)

/-- Counting across key-indexed filter groups: an element is counted once
per key classifying it (zero keys when the classifier is null). -/
theorem count_flatten_groups {ρ κ : Type} [DecidableEq ρ] [DecidableEq κ]
    (P : κ → ρ → Bool) (cls : ρ → Option κ)
    (hP : ∀ y k, P k y = true ↔ cls y = some k) (l : List ρ) :
    ∀ ks : List κ, ks.Nodup → ∀ x : ρ,
      ((ks.map (fun k => l.filter (P k))).flatten).count x =
        (match cls x with
         | some kx => if kx ∈ ks then l.count x else 0
         | none => 0) := by
  intro ks
  induction ks with
  | nil =>
    intro _ x
    cases cls x <;> simp
  | cons k ks ih =>
    intro hn x
    have hrest := ih (List.nodup_cons.mp hn).2 x
    simp only [List.map_cons, List.flatten_cons, List.count_append]
    rw [hrest]
    cases hc : cls x with
    | none =>
      have hPx : ¬ P k x = true := fun hp => by
        rw [hP x k] at hp
        exact Option.noConfusion (hc.symm.trans hp)
      simp [count_filter_eq_zero _ _ _ hPx]
    | some kx =>
      by_cases hkx : kx = k
      · subst hkx
        have hPx : P kx x = true := (hP x kx).mpr hc
        have hnot : kx ∉ ks := (List.nodup_cons.mp hn).1
        rw [List.count_filter hPx]
        simp [hnot]
      · have hPx : ¬ P k x = true := fun hp => by
          rw [hP x k] at hp
          exact hkx (Option.some.inj (hc.symm.trans hp))
        rw [count_filter_eq_zero _ _ _ hPx]
        simp [List.mem_cons, hkx]

/-- The groups of `groupByKey` partition the list, up to order. -/
theorem flatten_groupByKey_perm {ρ κ : Type} [DecidableEq ρ] [DecidableEq κ]
    (key : ρ → κ) (l : List ρ) :
    ((groupByKey key l).map Prod.snd).flatten.Perm l := by
  rw [List.perm_iff_count]
  intro x
  have hmap : (groupByKey key l).map Prod.snd =
      (dedupByFirst id (l.map key)).map
        (fun k => l.filter (fun y => decide (key y = k))) := by
    unfold groupByKey
    rw [List.map_map]
    rfl
  rw [hmap]
  have h := count_flatten_groups (fun k y => decide (key y = k)) (fun y => some (key y))
    (by intro y k; simp) l (dedupByFirst id (l.map key)) (nodup_dedupByFirst_id _) x
  simp only at h
  rw [h]
  by_cases hx : key x ∈ dedupByFirst id (l.map key)
  · simp [hx]
  · rw [if_neg hx]
    have hxl : x ∉ l := fun hm =>
      hx ((mem_dedupByFirst_id _ _).mpr (List.mem_map_of_mem key hm))
    simp [List.count_eq_zero.mpr hxl]

/-- The groups of `groupByOptKey` partition the keyed rows, up to order;
rows with a null key are dropped. -/
theorem flatten_groupByOptKey_perm {ρ κ : Type} [DecidableEq ρ] [DecidableEq κ]
    (key : ρ → Option κ) (l : List ρ) :
    ((groupByOptKey key l).map Prod.snd).flatten.Perm
      (l.filter (fun y => (key y).isSome)) := by
  rw [List.perm_iff_count]
  intro x
  have hmap : (groupByOptKey key l).map Prod.snd =
      (dedupByFirst id (l.filterMap key)).map
        (fun k => l.filter (fun y => decide (key y = some k))) := by
    unfold groupByOptKey
    rw [List.map_map]
    rfl
  rw [hmap]
  have h := count_flatten_groups (fun k y => decide (key y = some k)) key
    (by intro y k; simp) l (dedupByFirst id (l.filterMap key)) (nodup_dedupByFirst_id _) x
  cases hc : key x with
  | none =>
    simp only [hc] at h
    rw [h, count_filter_eq_zero _ _ _ (by simp [hc])]
  | some kx =>
    simp only [hc] at h
    rw [h]
    by_cases hx : x ∈ l
    · have hk : kx ∈ dedupByFirst id (l.filterMap key) :=
        (mem_dedupByFirst_id _ _).mpr (List.mem_filterMap.mpr ⟨x, hx, hc⟩)
      rw [if_pos hk, List.count_filter (by simp [hc])]
    · have h0 : l.count x = 0 := List.count_eq_zero.mpr hx
      have h0f : (l.filter (fun y => (key y).isSome)).count x = 0 :=
        List.count_eq_zero.mpr (fun hm => hx (List.mem_of_mem_filter hm))
      rw [h0f]
      by_cases hk : kx ∈ dedupByFirst id (l.filterMap key)
      · rw [if_pos hk, h0]
      · rw [if_neg hk]

/-- Pointwise-permutation congruence for flattened maps. -/
theorem flatten_map_perm_congr {γ α : Type} (f g : γ → List α) :
    ∀ gs : List γ, (∀ x ∈ gs, (f x).Perm (g x)) →
      ((gs.map f).flatten).Perm ((gs.map g).flatten) := by
  intro gs
  induction gs with
  | nil => intro _; simp
  | cons a as ih =>
    intro h
    simp only [List.map_cons, List.flatten_cons]
    exact (h a (List.mem_cons_self _ _)).append
      (ih (fun x hx => h x (List.mem_cons_of_mem _ hx)))

/-- Filtering inside the groups equals filtering the flattened list. -/
theorem flatten_map_filter {α γ : Type} (p : α → Bool) (f : γ → List α) :
    ∀ gs : List γ, ((gs.map (fun q => (f q).filter p)).flatten) =
      ((gs.map f).flatten).filter p := by
  intro gs
  induction gs with
  | nil => rfl
  | cons a as ih => simp [List.filter_append, ih]

/-- The tracks of an album group are always the projected group rows,
whichever branch built the album attributes. -/
theorem mkAlbumEntry_tracks (vals : List String) (alb : String) (grp : List Row) :
    (mkAlbumEntry vals alb grp).tracks = grp.map projectTrack := by
  unfold mkAlbumEntry
  by_cases hv : alb ∈ vals
  · simp [hv]
  · cases grp <;> simp [hv]

/-- Within one artist group, the album-level grouping keeps exactly the
rows with a non-null `album_id`, projected to track entries. -/
theorem albums_tracks_perm (vals : List String) (g : List Row) :
    ((((groupByOptKey (fun r => r.album_id) g).map
        (fun q => mkAlbumEntry vals q.1 q.2)).map (fun a => a.tracks)).flatten).Perm
      ((g.filter (fun r => r.album_id.isSome)).map projectTrack) := by
  rw [List.map_map]
  have hfun : ((fun a => a.tracks) ∘
      (fun q : String × List Row => mkAlbumEntry vals q.1 q.2)) =
      fun q : String × List Row => q.2.map projectTrack := by
    funext q
    exact mkAlbumEntry_tracks vals q.1 q.2
  rw [hfun]
  have h1 : (groupByOptKey (fun r => r.album_id) g).map
      (fun q : String × List Row => q.2.map projectTrack) =
      ((groupByOptKey (fun r => r.album_id) g).map Prod.snd).map
        (List.map projectTrack) := by
    rw [List.map_map]
    rfl
  rw [h1, ← List.map_flatten]
  exact (flatten_groupByOptKey_perm (fun r => r.album_id) g).map projectTrack

/-! ## C6 — grouping completeness -/

/-- A non-single row whose input `album_id` is the null sentinel. -/
def nullAlbumRow : Row := { baseRow with album_id := none }

/-- Counterexample to claim C6: a non-single row with a null `album_id` is
dropped by the artist-nested transform's album-level `groupby`
(`dropna=True`), so it appears in *zero* album groups — while the
track-centric transform still emits its document. -/
theorem C6_counterexample :
    flatTracks (docTransform freshA [nullAlbumRow]) = [] ∧
    ([nullAlbumRow] : List Row) ≠ [] ∧
    transform_to_track_documents freshA [nullAlbumRow] = [mkTrackDoc nullAlbumRow] := by
  decide

/-- Amended claim C6: across the artist-nested output, the track entries
are exactly the projections of the rewritten rows whose `album_id` is
non-null, each appearing in exactly one album group of exactly one artist
document (rows with a null rewritten `album_id` — necessarily non-singles
— are dropped); the track-centric transform emits exactly one document
per input row, none dropped or duplicated. -/
theorem C6_grouping_completeness (fresh : Nat → String) (df : List Row) :
    (flatTracks (docTransform fresh df)).Perm
      (((df.map (assignDoc (singlesMap df fresh))).filter
        (fun r => r.album_id.isSome)).map projectTrack) ∧
    transform_to_track_documents fresh df =
      (df.map (assignDoc (singlesMap df fresh))).map mkTrackDoc ∧
    (transform_to_track_documents fresh df).length = df.length := by
  refine ⟨?_, rfl, by simp [transform_to_track_documents]⟩
  have hdocs : flatTracks (docTransform fresh df) =
      ((groupByKey (fun r => r.artist_id) (df.map (assignDoc (singlesMap df fresh)))).map
        (fun p =>
          (((groupByOptKey (fun r => r.album_id) p.2).map
            (fun q => mkAlbumEntry ((singlesAssoc df fresh).map Prod.snd) q.1 q.2)).map
              (fun a => a.tracks)).flatten)).flatten := by
    unfold flatTracks docTransform
    rw [List.map_map]
    rfl
  rw [hdocs]
  refine (flatten_map_perm_congr _ _ _
    (fun p _ => albums_tracks_perm ((singlesAssoc df fresh).map Prod.snd) p.2)).trans ?_
  have h2 : (groupByKey (fun r => r.artist_id)
        (df.map (assignDoc (singlesMap df fresh)))).map
      (fun p : String × List Row =>
        (p.2.filter (fun r => r.album_id.isSome)).map projectTrack) =
      ((groupByKey (fun r => r.artist_id)
          (df.map (assignDoc (singlesMap df fresh)))).map
        (fun p : String × List Row => p.2.filter (fun r => r.album_id.isSome))).map
          (List.map projectTrack) := by
    rw [List.map_map]
    rfl
  have h3 := flatten_map_filter (fun r : Row => r.album_id.isSome) Prod.snd
    (groupByKey (fun r => r.artist_id) (df.map (assignDoc (singlesMap df fresh))))
  rw [h2, ← List.map_flatten, h3]
  exact ((flatten_groupByKey_perm (fun r => r.artist_id) _).filter _).map projectTrack

/-! ## C10 — the generator -/

/-- Claim C10: for any oracle, any `num_records` and any `num_artists ≥ 1`,
the generator succeeds with exactly `num_records` rows; every single
carries the literal `album_id` 'none' (the reader's null sentinel), and
every non-single carries the id of a generated album. -/
theorem C10_generator (o : GenOracle) (num_records num_artists : Nat)
    (h : 1 ≤ num_artists) :
    ∃ rows, generate_music_data o num_records num_artists = .ok rows ∧
      rows.length = num_records ∧
      (∀ r ∈ rows, (r.is_single = true → r.album_id = "none") ∧
        (r.is_single = false →
          ∃ alb ∈ _generate_albums o (_generate_artists o num_artists),
            r.album_id = alb.album_id)) := by
  have hne : ¬ (_generate_artists o num_artists = []) := by
    intro he
    have hlen : (_generate_artists o num_artists).length = num_artists := by
      simp [_generate_artists]
    rw [he] at hlen
    simp at hlen
    omega
  have hcond : ¬ (0 < num_records -
      ((albumTrackRows o (_generate_albums o (_generate_artists o num_artists))).take
        num_records).length ∧
      _generate_artists o num_artists = []) := fun hc => hne hc.2
  refine ⟨(albumTrackRows o (_generate_albums o (_generate_artists o num_artists))).take
      num_records ++
    (List.range (num_records -
        ((albumTrackRows o (_generate_albums o (_generate_artists o num_artists))).take
          num_records).length)).map
      (fun k => mkSingleRow o k ((_generate_artists o num_artists).getD
        (o.chooseArtist k % (_generate_artists o num_artists).length)
        (GenArtist.mk "" ""))), ?_, ?_, ?_⟩
  · simp only [generate_music_data]
    rw [if_neg hcond]
  · rw [List.length_append, List.length_map, List.length_range, List.length_take]
    exact Nat.add_sub_cancel' (Nat.min_le_left _ _)
  · intro r hr
    rcases List.mem_append.mp hr with hal | hsi
    · have hal' : r ∈ albumTrackRows o (_generate_albums o (_generate_artists o num_artists)) :=
        List.take_subset _ _ hal
      rcases List.mem_flatMap.mp hal' with ⟨p, hp, hj⟩
      rcases List.mem_map.mp hj with ⟨j, _, hje⟩
      constructor
      · intro hs
        rw [← hje] at hs
        simp [mkAlbumTrackRow] at hs
      · intro _
        refine ⟨p.2, ?_, ?_⟩
        · have := List.mem_map_of_mem Prod.snd hp
          rw [List.enum_map_snd] at this
          exact this
        · rw [← hje]
          rfl
    · rcases List.mem_map.mp hsi with ⟨k, _, hke⟩
      constructor
      · intro _
        rw [← hke]
        rfl
      · intro hs
        rw [← hke] at hs
        simp [mkSingleRow] at hs

/-- A concrete all-constant oracle. -/
def o0 : GenOracle :=
  GenOracle.mk (fun _ => "aid") (fun _ => "aname") (fun _ => 0)
    (fun _ _ => "albid") (fun _ _ => "albname") (fun _ _ => "2020-01-01")
    (fun _ _ => 0) (fun _ _ => "tid") (fun _ _ => "ttitle") (fun _ _ => "Pop")
    (fun _ _ => 0) (fun _ _ => 0) (fun _ _ => 0) (fun _ _ => false)
    (fun _ => 0) (fun _ => "sid") (fun _ => "stitle") (fun _ => "Rock")
    (fun _ => 0) (fun _ => 0) (fun _ => 0) (fun _ => false) (fun _ => "2021-01-01")

/-- Witness for C10 at a concrete oracle and sizes. -/
theorem C10_generator_witness :
    1 ≤ 1 ∧ ∃ rows, generate_music_data o0 3 1 = .ok rows ∧ rows.length = 3 ∧
      (∀ r ∈ rows, (r.is_single = true → r.album_id = "none") ∧
        (r.is_single = false →
          ∃ alb ∈ _generate_albums o0 (_generate_artists o0 1),
            r.album_id = alb.album_id)) :=
  ⟨by decide, C10_generator o0 3 1 (by decide)⟩

end MusicETL
